import Mathlib

set_option autoImplicit false

namespace AiFactory

/-! Shallow embedding of the ai-factory core: the config reconciler
(src/core/config.ts), the MCP provisioner (the mcp module), and the skill
installer (src/core/installer.ts).  Filesystem primitives and the external
agent registry are modelled as explicit environments; a thrown JavaScript
exception is modelled by Option (none). -/

/-! Generic JavaScript-ish preliminaries. -/

/-- Join two relative path segments the way path.join does. -/
def pathJoin (a b : String) : String := a ++ "/" ++ b

/-- Split a character list at every occurrence of the separator. -/
def splitCharList (sep : Char) : List Char → List (List Char)
  | [] => [[]]
  | c :: rest =>
    let r := splitCharList sep rest
    if c = sep then [] :: r
    else
      match r with
      | h :: t => (c :: h) :: t
      | [] => [[c]]

/-- JavaScript String.prototype.split with a one-character separator, as used by
customSkill.split in installer.ts: the empty string splits to a singleton list
holding the empty string, and separators at the ends produce empty fields. -/
def jsSplit (s : String) (sep : Char) : List String :=
  (splitCharList sep s.data).map (fun l => ⟨l⟩)

/-- Truthiness of an optional string under JavaScript boolean coercion:
undefined and null (both modelled as none) and the empty string are falsy. -/
def strFalsy : Option String → Bool
  | none => true
  | some s => s == ""

/-! The external agent registry, consumed but not implemented by the core. -/

/-- Modelled from the spec: the agent capability profile returned by the
external read-only registry getAgentConfig (src/core/agents.ts is not part of
the verified core).  Only the fields the core consults are modelled. -/
structure AgentProfile where
  supportsMcp : Bool
  settingsFile : Option String
  skillsDir : String
  deriving Repr, DecidableEq

/-- Modelled from the spec: the ambient tool context of config.ts — the package
version read from package.json (CURRENT_VERSION) and the external agent
registry, which succeeds exactly on recognized agent ids (none models the
lookup throwing). -/
structure ToolEnv where
  currentVersion : String
  agents : String → Option AgentProfile

/-! Embedding of src/core/config.ts. -/

/-- The four MCP boolean flags of a fully populated project configuration. -/
structure McpFlags where
  github : Bool
  filesystem : Bool
  postgres : Bool
  chromeDevtools : Bool
  deriving Repr, DecidableEq

/-- A stored, possibly incomplete mcp sub-object: each flag may be absent. -/
structure McpFlagsPatch where
  github : Option Bool
  filesystem : Option Bool
  postgres : Option Bool
  chromeDevtools : Option Bool
  deriving Repr, DecidableEq

/-- The JSON value found at the installedSkills key of a stored config file:
absent, an array of strings, or some non-array value (Array.isArray false). -/
inductive SkillsField where
  | absent
  | arr (xs : List String)
  | notArray
  deriving Repr, DecidableEq

/-- The shape of what loadConfig may read from disk and hand to migrateConfig:
a partial AiFactoryConfig (config.ts), every field possibly absent. -/
structure ConfigPatch where
  version : Option String
  agent : Option String
  skillsDir : Option String
  installedSkills : SkillsField
  mcp : Option McpFlagsPatch
  deriving Repr, DecidableEq

/-- AiFactoryConfig (config.ts lines 9-20). -/
structure AiFactoryConfig where
  version : String
  agent : String
  skillsDir : String
  installedSkills : List String
  mcp : McpFlags
  deriving Repr, DecidableEq

/-- resolveAgentId (config.ts lines 25-36): a falsy agent id (absent or empty
string) falls back to claude, and so does an id the registry rejects. -/
def resolveAgentId (te : ToolEnv) (agentId : Option String) : String :=
  match agentId with
  | none => "claude"
  | some a =>
    if a == "" then "claude"
    else
      match te.agents a with
      | some _ => a
      | none => "claude"

/-- createDefaultConfig (config.ts lines 42-58); none models getAgentConfig
throwing on the resolved id. -/
def createDefaultConfig (te : ToolEnv) (agentId : String) : Option AiFactoryConfig :=
  let resolvedAgentId := resolveAgentId te (some agentId)
  (te.agents resolvedAgentId).map fun agent =>
    { version := te.currentVersion
      agent := resolvedAgentId
      skillsDir := agent.skillsDir
      installedSkills := []
      mcp := ⟨false, false, false, false⟩ }

/-- migrateConfig (config.ts lines 60-75): spread the defaults, then the stored
object on top of them, then explicitly override agent, installedSkills (empty
unless the stored value is an array) and the key-by-key mcp merge.  The fields
version and skillsDir are decided by the spread alone: present wins over
default. -/
def migrateConfig (te : ToolEnv) (config : ConfigPatch) : Option AiFactoryConfig :=
  let resolvedAgentId := resolveAgentId te config.agent
  (createDefaultConfig te resolvedAgentId).map fun defaults =>
    let pm := config.mcp.getD ⟨none, none, none, none⟩
    { version := config.version.getD defaults.version
      agent := resolvedAgentId
      skillsDir := config.skillsDir.getD defaults.skillsDir
      installedSkills :=
        match config.installedSkills with
        | .arr xs => xs
        | _ => defaults.installedSkills
      mcp :=
        { github := pm.github.getD defaults.mcp.github
          filesystem := pm.filesystem.getD defaults.mcp.filesystem
          postgres := pm.postgres.getD defaults.mcp.postgres
          chromeDevtools := pm.chromeDevtools.getD defaults.mcp.chromeDevtools } }

/-! Embedding of the MCP provisioner module. -/

/-- McpServerConfig (mcp module lines 5-9): a bundled server template. -/
structure McpServerConfig where
  command : String
  args : Option (List String)
  env : Option (List (String × String))
  deriving Repr, DecidableEq

/-- OpenCodeMcpServerConfig (mcp module lines 11-15). -/
structure OpenCodeMcpServerConfig where
  type : String
  command : List String
  environment : Option (List (String × String))
  deriving Repr, DecidableEq

/-- McpOptions (mcp module lines 26-31). -/
structure McpOptions where
  github : Bool
  filesystem : Bool
  postgres : Bool
  chromeDevtools : Bool
  deriving Repr, DecidableEq

/-- The four MCP server keys, in the fixed order in which Object.keys on
MCP_SERVER_FILES yields them (mcp module lines 35-40). -/
inductive McpKey where
  | github
  | filesystem
  | postgres
  | chromeDevtools
  deriving Repr, DecidableEq

/-- The string name of an MCP server key, as pushed into configuredServers. -/
def McpKey.name : McpKey → String
  | .github => "github"
  | .filesystem => "filesystem"
  | .postgres => "postgres"
  | .chromeDevtools => "chromeDevtools"

/-- Key iteration order of getSelectedServerTemplates. -/
def mcpKeyOrder : List McpKey := [.github, .filesystem, .postgres, .chromeDevtools]

/-- The flag of options corresponding to a server key. -/
def McpOptions.get (o : McpOptions) : McpKey → Bool
  | .github => o.github
  | .filesystem => o.filesystem
  | .postgres => o.postgres
  | .chromeDevtools => o.chromeDevtools

/-- toOpenCodeFormat (mcp module lines 42-49): command becomes the primary
command followed by the args (empty when absent); environment is set exactly
when the template carries an env object. -/
def toOpenCodeFormat (config : McpServerConfig) : OpenCodeMcpServerConfig :=
  let command := config.command :: config.args.getD []
  let base : OpenCodeMcpServerConfig := { type := "local", command := command, environment := none }
  match config.env with
  | some e => { base with environment := some e }
  | none => base

/-- An agent settings JSON document: the two MCP sub-maps the code may touch
and, carried opaquely, every other top-level entry.  Both runtime settings
shapes keep unknown keys, and writeJsonFile serializes the whole object. -/
structure SettingsDoc where
  mcpServers : Option (List (String × McpServerConfig))
  mcp : Option (List (String × OpenCodeMcpServerConfig))
  rest : List (String × String)
  deriving Repr, DecidableEq

/-- The empty settings object the code starts from when no file is readable. -/
def emptySettings : SettingsDoc := ⟨none, none, []⟩

/-- JavaScript object property assignment on a key-ordered map with unique
keys: overwrite in place when the key exists, else append at the end. -/
def setKey {α : Type} : List (String × α) → String → α → List (String × α)
  | [], k, v => [(k, v)]
  | p :: rest, k, v => if p.1 == k then (k, v) :: rest else p :: setKey rest k v

/-- Property lookup on a key-ordered map. -/
def lookupKey {α : Type} : List (String × α) → String → Option α
  | [], _ => none
  | p :: rest, k => if p.1 == k then some p.2 else lookupKey rest k

/-- The per-invocation filesystem context of configureMcp: the agent registry,
the readJsonFile outcome for each bundled server template file, and the
combined fileExists plus readJsonFile outcome for the agent settings file. -/
structure McpEnv where
  agents : String → Option AgentProfile
  templates : McpKey → Option McpServerConfig
  settingsDoc : Option SettingsDoc

/-- getSelectedServerTemplates (mcp module lines 51-66): keep each flagged key
whose template file loads; a missing template file is skipped silently. -/
def getSelectedServerTemplates (options : McpOptions) (templates : McpKey → Option McpServerConfig) :
    List (McpKey × McpServerConfig) :=
  mcpKeyOrder.filterMap fun k =>
    if options.get k then (templates k).map fun t => (k, t)
    else none

/-- The observable outcome of one configureMcp call: the returned key list,
whether ensureDir ran on the settings directory, and the document written to
the settings file (none when the file was not written). -/
structure McpOutcome where
  configured : List String
  ensuredDir : Bool
  written : Option SettingsDoc
  deriving Repr, DecidableEq

/-- configureMcp (mcp module lines 68-130); none models getAgentConfig throwing
for an unknown agent id.  The capability gate returns before ensureDir; the
no-template early return happens after ensureDir but writes nothing; otherwise
the selected templates are merged into the branch-appropriate MCP sub-map of
the loaded settings document and the whole document is written back. -/
def configureMcp (env : McpEnv) (options : McpOptions) (agentId : String) : Option McpOutcome :=
  (env.agents agentId).map fun agent =>
    if !agent.supportsMcp || strFalsy agent.settingsFile then
      { configured := [], ensuredDir := false, written := none }
    else
      let isOpenCode := agentId == "opencode"
      let selectedTemplates := getSelectedServerTemplates options env.templates
      if selectedTemplates.isEmpty then
        { configured := [], ensuredDir := true, written := none }
      else
        let settings := env.settingsDoc.getD emptySettings
        if isOpenCode then
          let m0 := settings.mcp.getD []
          let m1 := selectedTemplates.foldl (fun m kt => setKey m kt.1.name (toOpenCodeFormat kt.2)) m0
          { configured := selectedTemplates.map (fun kt => kt.1.name)
            ensuredDir := true
            written := some { settings with mcp := some m1 } }
        else
          let m0 := settings.mcpServers.getD []
          let m1 := selectedTemplates.foldl (fun m kt => setKey m kt.1.name kt.2) m0
          { configured := selectedTemplates.map (fun kt => kt.1.name)
            ensuredDir := true
            written := some { settings with mcpServers := some m1 } }

/-! Embedding of src/core/installer.ts. -/

/-- The per-invocation filesystem context of the installer: whether
installSkillWithTransformer completes for a given source skill directory
(false models it throwing, for example on a missing SKILL.md), the
listDirectories outcome for a directory (none models it throwing on a missing
one), and fileExists for a path.  The getAgentConfig lookup at the head of
installSkills and reconcileCustomSkills is modelled as having succeeded: its
result only feeds installSkillWithTransformer, which this context absorbs. -/
structure InstallFS where
  installOk : String → Bool
  listDirs : String → Option (List String)
  fileEx : String → Bool

/-- The bundled package skills directory, getSkillsDir of the out-of-scope
filesystem helper layer, fixed for a whole run. -/
def packageSkillsDir : String := "skills"

/-- The stack template loop of installSkills (lines 110-115) as wrapped by the
try/catch of lines 108-118: installs run in listed order, and the first
throwing install aborts the remainder of the loop through the silent catch. -/
def stackTemplateLoop (fs : InstallFS) (templateDir stack : String) : List String → List String
  | [] => []
  | d :: rest =>
    if fs.installOk (pathJoin templateDir d) then
      (stack ++ "/" ++ d) :: stackTemplateLoop fs templateDir stack rest
    else []

/-- installSkills (installer.ts lines 85-127): a per-skill try/catch around
each requested skill (warn and continue), then the stack template block whose
single surrounding catch is silent.  Returns the pushed installedSkills list
and the skill names warned about by the requested loop. -/
def installSkills (fs : InstallFS) (skills : List String) (stack : Option String) :
    List String × List String :=
  let requested := skills.foldl
    (fun acc skill =>
      if fs.installOk (pathJoin packageSkillsDir skill) then (acc.1 ++ [skill], acc.2)
      else (acc.1, acc.2 ++ [skill]))
    ([], [])
  let stackKeys :=
    match stack with
    | none => []
    | some st =>
      if st == "" then []
      else
        let templateDir := pathJoin (pathJoin packageSkillsDir "_templates") st
        match fs.listDirs templateDir with
        | none => []
        | some templateSkills => stackTemplateLoop fs templateDir st templateSkills
  (requested.1 ++ stackKeys, requested.2)

/-- The outcome of one iteration of the reconcileCustomSkills loop (installer.ts
lines 52-80): the key was reinstalled and pushed, or exactly one warning was
printed for it (invalid shape, failed reinstall, or missing source). -/
inductive ReconcileEvent where
  | reconciled (key : String)
  | warnInvalid (key : String)
  | warnFailed (key : String)
  | warnNotFound (key : String)
  deriving Repr, DecidableEq

/-- The template source directory a stack/skill pair resolves to (line 60). -/
def templateSkillDirOf (stack templateSkill : String) : String :=
  pathJoin (pathJoin (pathJoin packageSkillsDir "_templates") stack) templateSkill

/-- One iteration of the reconcileCustomSkills loop (installer.ts lines 52-80):
destructure the first two split fields, warn on a falsy stack or skill part,
check the source SKILL.md, then reinstall inside a warning try/catch. -/
def reconcileStep (fs : InstallFS) (customSkill : String) : ReconcileEvent :=
  match jsSplit customSkill '/' with
  | stack :: templateSkill :: _ =>
    if stack == "" || templateSkill == "" then .warnInvalid customSkill
    else if fs.fileEx (pathJoin (templateSkillDirOf stack templateSkill) "SKILL.md") then
      if fs.installOk (templateSkillDirOf stack templateSkill) then .reconciled customSkill
      else .warnFailed customSkill
    else .warnNotFound customSkill
  | _ => .warnInvalid customSkill

/-- reconcileCustomSkills (installer.ts lines 47-83): process every key in
order, pushing the reinstalled ones and recording one event per key. -/
def reconcileCustomSkills (fs : InstallFS) (customSkills : List String) :
    List String × List ReconcileEvent :=
  customSkills.foldl
    (fun acc key =>
      match reconcileStep fs key with
      | .reconciled _ => (acc.1 ++ [key], acc.2 ++ [ReconcileEvent.reconciled key])
      | e => (acc.1, acc.2 ++ [e]))
    ([], [])

/-- Whether one reconcile iteration pushed its key. -/
def stepReconciled (fs : InstallFS) (key : String) : Bool :=
  match reconcileStep fs key with
  | .reconciled _ => true
  | _ => false

/-- Claim-side reading of a custom-skill key: it splits around the slash into a
non-empty stack part and a non-empty skill part. -/
def keyWellFormed (key : String) : Bool :=
  match jsSplit key '/' with
  | stack :: templateSkill :: _ => stack != "" && templateSkill != ""
  | _ => false

/-- Claim-side reading of the source template directory of a custom-skill key
(empty for a malformed key). -/
def keyTemplateDir (key : String) : String :=
  match jsSplit key '/' with
  | stack :: templateSkill :: _ => templateSkillDirOf stack templateSkill
  | _ => ""

/-! Concrete fixtures used to instantiate the theorems. -/

/-- Modelled from the spec: a profile for the default agent claude, which
supports MCP through an mcpServers-shaped settings file. -/
def claudeProfile : AgentProfile := ⟨true, some ".mcp.json", ".claude/skills"⟩

/-- Modelled from the spec: a profile for the opencode agent, which supports
MCP through an mcp-shaped settings file. -/
def openCodeProfile : AgentProfile := ⟨true, some "opencode.json", ".opencode/skill"⟩

/-- Modelled from the spec: a profile for an agent without MCP support. -/
def noMcpProfile : AgentProfile := ⟨false, none, ".helper/skills"⟩

/-- A concrete registry holding the three fixture profiles. -/
def registry3 : String → Option AgentProfile := fun id =>
  if id == "claude" then some claudeProfile
  else if id == "opencode" then some openCodeProfile
  else if id == "helper" then some noMcpProfile
  else none

/-- A concrete tool context for the config theorems. -/
def te0 : ToolEnv := { currentVersion := "1.2.3", agents := registry3 }

/-- The stored config object with every field absent. -/
def emptyPatch : ConfigPatch := ⟨none, none, none, .absent, none⟩

/-- A concrete github server template. -/
def tGithub : McpServerConfig := ⟨"npx", some ["-y", "server"], some [("TOKEN", "x")]⟩

/-- A concrete pre-existing server entry that no call of this run selects. -/
def tOld : McpServerConfig := ⟨"node", some ["old.js"], none⟩

/-- A pre-existing settings document with a foreign top-level entry and a
pre-existing MCP server entry. -/
def docPrev : SettingsDoc := ⟨some [("old", tOld)], none, [("theme", "dark")]⟩

/-- Options selecting only the github server. -/
def optsGithub : McpOptions := ⟨true, false, false, false⟩

/-- Options selecting every server. -/
def optsAll : McpOptions := ⟨true, true, true, true⟩

/-- An MCP context with only the github template present and no settings file. -/
def envFresh : McpEnv :=
  { agents := registry3
    templates := fun k => match k with | .github => some tGithub | _ => none
    settingsDoc := none }

/-- An MCP context with only the github template present and docPrev on disk. -/
def envPrev : McpEnv :=
  { agents := registry3
    templates := fun k => match k with | .github => some tGithub | _ => none
    settingsDoc := some docPrev }

/-- An MCP context whose template files are all missing. -/
def envNoTemplates : McpEnv :=
  { agents := registry3, templates := fun _ => none, settingsDoc := some docPrev }

/-- The document configureMcp writes for claude in envFresh selecting github. -/
def docFreshAnthro : SettingsDoc := ⟨some [("github", tGithub)], none, []⟩

/-- The document configureMcp writes for opencode in envFresh selecting github. -/
def docFreshOpen : SettingsDoc := ⟨none, some [("github", toOpenCodeFormat tGithub)], []⟩

/-- The document configureMcp writes for claude in envPrev selecting github. -/
def docPrevWritten : SettingsDoc :=
  ⟨some [("old", tOld), ("github", tGithub)], none, [("theme", "dark")]⟩

/-- An installer context where every skill installs except skills/beta. -/
def fsBetaBroken : InstallFS :=
  { installOk := fun dir => dir != "skills/beta"
    listDirs := fun _ => none
    fileEx := fun _ => true }

/-- An installer context for the stack web whose template directory lists
alpha and beta, where installing alpha throws and installing beta would
succeed. -/
def fsStackAlphaBroken : InstallFS :=
  { installOk := fun dir => dir == "skills/_templates/web/beta"
    listDirs := fun dir => if dir == "skills/_templates/web" then some ["alpha", "beta"] else none
    fileEx := fun _ => false }

/-- An installer context where only the custom skill web/alpha still has its
source template, and its reinstall succeeds. -/
def fsReconcile : InstallFS :=
  { installOk := fun dir => dir == "skills/_templates/web/alpha"
    listDirs := fun _ => none
    fileEx := fun p => p == "skills/_templates/web/alpha/SKILL.md" }

/-! Helper lemmas. -/

theorem lookupKey_setKey {α : Type} (m : List (String × α)) (k k' : String) (v : α) :
    lookupKey (setKey m k v) k' = if k = k' then some v else lookupKey m k' := by
  induction m with
  | nil =>
    by_cases h : k = k' <;> simp [setKey, lookupKey, h]
  | cons p rest ih =>
    by_cases hpk : p.1 = k
    · by_cases hkk : k = k' <;>
        simp [setKey, lookupKey, hpk, hkk, beq_iff_eq]
    · by_cases hpk' : p.1 = k'
      · have hkk : ¬k = k' := fun he => hpk (hpk'.trans he.symm)
        have hkk' : ¬k' = k := fun he => hkk he.symm
        simp [setKey, lookupKey, hpk, hpk', hkk, hkk', beq_iff_eq, ih]
      · simp [setKey, lookupKey, hpk, hpk', beq_iff_eq, ih]

theorem lookupKey_foldl_setKey_of_ne {α β : Type} (f : β → String) (g : β → α) (l : List β) :
    ∀ (m : List (String × α)) (k : String), (∀ b ∈ l, f b ≠ k) →
      lookupKey (l.foldl (fun acc c => setKey acc (f c) (g c)) m) k = lookupKey m k := by
  induction l with
  | nil => intro m k _; rfl
  | cons b rest ih =>
    intro m k h
    have hb : f b ≠ k := h b (by simp)
    rw [List.foldl_cons, ih _ k (fun c hc => h c (by simp [hc])), lookupKey_setKey]
    simp [hb]

theorem lookupKey_foldl_setKey_of_mem {α β : Type} (f : β → String) (g : β → α) (l : List β) :
    ∀ (m : List (String × α)) (b : β), b ∈ l → l.Pairwise (fun x y => f x ≠ f y) →
      lookupKey (l.foldl (fun acc c => setKey acc (f c) (g c)) m) (f b) = some (g b) := by
  induction l with
  | nil => intro m b hb _; cases hb
  | cons c rest ih =>
    intro m b hb hpw
    rw [List.foldl_cons]
    rcases List.mem_cons.mp hb with rfl | hbr
    · have hne : ∀ x ∈ rest, f x ≠ f b :=
        fun x hx => Ne.symm ((List.pairwise_cons.mp hpw).1 x hx)
      rw [lookupKey_foldl_setKey_of_ne f g rest _ _ hne, lookupKey_setKey]
      simp
    · exact ih _ b hbr (List.pairwise_cons.mp hpw).2

theorem resolveAgentId_ne_empty (te : ToolEnv) (x : Option String) : resolveAgentId te x ≠ "" := by
  unfold resolveAgentId
  match x with
  | none => simp
  | some a =>
    by_cases h : a = ""
    · simp [h]
    · cases hb : te.agents a <;> simp [h, hb, beq_iff_eq]

theorem agents_resolveAgentId_isSome (te : ToolEnv) (x : Option String)
    (h : (te.agents "claude").isSome) : (te.agents (resolveAgentId te x)).isSome := by
  unfold resolveAgentId
  match x with
  | none => exact h
  | some a =>
    by_cases ha : a = ""
    · simp [ha, h]
    · cases hb : te.agents a <;> simp [ha, hb, beq_iff_eq, h]

theorem resolveAgentId_idem (te : ToolEnv) (x : Option String) (p : AgentProfile)
    (hp : te.agents (resolveAgentId te x) = some p) :
    resolveAgentId te (some (resolveAgentId te x)) = resolveAgentId te x := by
  have hne := resolveAgentId_ne_empty te x
  generalize hr : resolveAgentId te x = r at hp hne
  simp [resolveAgentId, hne, hp, beq_iff_eq]

theorem migrateConfig_spec (te : ToolEnv) (c : ConfigPatch) (p : AgentProfile)
    (hp : te.agents (resolveAgentId te c.agent) = some p) :
    migrateConfig te c = some
      { version := c.version.getD te.currentVersion
        agent := resolveAgentId te c.agent
        skillsDir := c.skillsDir.getD p.skillsDir
        installedSkills := match c.installedSkills with | .arr xs => xs | _ => []
        mcp :=
          { github := (c.mcp.getD ⟨none, none, none, none⟩).github.getD false
            filesystem := (c.mcp.getD ⟨none, none, none, none⟩).filesystem.getD false
            postgres := (c.mcp.getD ⟨none, none, none, none⟩).postgres.getD false
            chromeDevtools := (c.mcp.getD ⟨none, none, none, none⟩).chromeDevtools.getD false } } := by
  simp only [migrateConfig, createDefaultConfig]
  rw [resolveAgentId_idem te c.agent p hp, hp]
  rfl

/-! Claim theorems. -/

/-- C1 counterexample: migrateConfig does not force the current tool version.
A stored config carrying version 0.0.1, migrated under a tool whose current
version is 1.2.3, comes back with version 0.0.1 — the stored value survives
the spread and is never overridden. -/
theorem migrateConfig_version_not_forced :
    (migrateConfig te0 { emptyPatch with version := some "0.0.1" }).map AiFactoryConfig.version =
        some "0.0.1" ∧
      te0.currentVersion = "1.2.3" := by
  constructor <;> decide

/-- C1 (amended): for every partial configuration, the migrated configuration's
version field equals the stored version when one is present, and the tool's
current version only when the stored config has no version field. -/
theorem migrateConfig_version_eq (te : ToolEnv) (c : ConfigPatch)
    (h : (te.agents "claude").isSome) :
    (migrateConfig te c).map AiFactoryConfig.version = some (c.version.getD te.currentVersion) := by
  obtain ⟨p, hp⟩ := Option.isSome_iff_exists.mp (agents_resolveAgentId_isSome te c.agent h)
  rw [migrateConfig_spec te c p hp]
  rfl

/-- Witness for C1 (amended) at a concrete input: a stored version 0.0.1 under
tool context te0 is kept. -/
theorem migrateConfig_version_eq_witness :
    (migrateConfig te0 { emptyPatch with version := some "0.0.1" }).map AiFactoryConfig.version =
      some ((some "0.0.1").getD te0.currentVersion) :=
  migrateConfig_version_eq te0 { emptyPatch with version := some "0.0.1" } (by decide)

/-- C3: migrateConfig merges the mcp sub-object key-by-key against the
defaults of createDefaultConfig (all four flags false): every flag present in
the stored mcp object keeps its stored value, and every absent flag (also when
the whole mcp field is absent) keeps its default value. -/
theorem migrateConfig_mcp_merge (te : ToolEnv) (c : ConfigPatch)
    (h : (te.agents "claude").isSome) :
    (migrateConfig te c).map AiFactoryConfig.mcp = some
      { github := (c.mcp.getD ⟨none, none, none, none⟩).github.getD false
        filesystem := (c.mcp.getD ⟨none, none, none, none⟩).filesystem.getD false
        postgres := (c.mcp.getD ⟨none, none, none, none⟩).postgres.getD false
        chromeDevtools := (c.mcp.getD ⟨none, none, none, none⟩).chromeDevtools.getD false } := by
  obtain ⟨p, hp⟩ := Option.isSome_iff_exists.mp (agents_resolveAgentId_isSome te c.agent h)
  rw [migrateConfig_spec te c p hp]
  rfl

/-- Witness for C3 at a concrete input: supplying only github true loses no
sibling flag — the migrated mcp object is github true with the three siblings
at their default false. -/
theorem migrateConfig_mcp_merge_witness :
    (migrateConfig te0 { emptyPatch with mcp := some ⟨some true, none, none, none⟩ }).map
        AiFactoryConfig.mcp =
      some ⟨true, false, false, false⟩ :=
  migrateConfig_mcp_merge te0 { emptyPatch with mcp := some ⟨some true, none, none, none⟩ } (by decide)

/-- C9: migrateConfig is total whenever the default agent claude is registered,
and the migrated agent field is claude when the stored agent field is missing
or unrecognized by the registry, and the stored id itself when recognized (the
registry is assumed not to register the empty id, which JavaScript falsiness
sends to claude as well). -/
theorem migrateConfig_total_agent (te : ToolEnv) (c : ConfigPatch)
    (hclaude : (te.agents "claude").isSome) (hempty : te.agents "" = none) :
    (migrateConfig te c).isSome ∧
      (migrateConfig te c).map AiFactoryConfig.agent =
        some (match c.agent with
              | none => "claude"
              | some a => if (te.agents a).isSome then a else "claude") := by
  obtain ⟨p, hp⟩ := Option.isSome_iff_exists.mp (agents_resolveAgentId_isSome te c.agent hclaude)
  rw [migrateConfig_spec te c p hp]
  refine ⟨rfl, ?_⟩
  simp only [Option.map_some']
  congr 1
  unfold resolveAgentId
  match c.agent with
  | none => rfl
  | some a =>
    by_cases ha : a = ""
    · subst ha
      simp [hempty]
    · cases hb : te.agents a <;> simp [ha, hb, beq_iff_eq]

/-- Witness for C9 at a concrete input: an unrecognized stored agent id is
coerced to claude and migration still succeeds. -/
theorem migrateConfig_total_agent_witness :
    (migrateConfig te0 { emptyPatch with agent := some "unknown-agent" }).isSome ∧
      (migrateConfig te0 { emptyPatch with agent := some "unknown-agent" }).map
          AiFactoryConfig.agent =
        some (if (te0.agents "unknown-agent").isSome then "unknown-agent" else "claude") :=
  migrateConfig_total_agent te0 { emptyPatch with agent := some "unknown-agent" }
    (by decide) (by decide)

/-- C10: whenever the stored installedSkills field is absent or not an array,
the migrated configuration's installedSkills is the empty list, and when it is
an array it is kept; the output field is always a list, so loadConfig never
surfaces a non-array installedSkills. -/
theorem migrateConfig_installedSkills_shape (te : ToolEnv) (c : ConfigPatch)
    (h : (te.agents "claude").isSome) :
    (migrateConfig te c).map AiFactoryConfig.installedSkills =
      some (match c.installedSkills with | .arr xs => xs | _ => []) := by
  obtain ⟨p, hp⟩ := Option.isSome_iff_exists.mp (agents_resolveAgentId_isSome te c.agent h)
  rw [migrateConfig_spec te c p hp]
  rfl

/-- Witness for C10 at a concrete input: a non-array installedSkills value
migrates to the empty list. -/
theorem migrateConfig_installedSkills_shape_witness :
    (migrateConfig te0 { emptyPatch with installedSkills := .notArray }).map
        AiFactoryConfig.installedSkills =
      some [] :=
  migrateConfig_installedSkills_shape te0 { emptyPatch with installedSkills := .notArray }
    (by decide)

theorem reconcileStep_carries_key (fs : InstallFS) (k k' : String)
    (h : reconcileStep fs k = ReconcileEvent.reconciled k') : k' = k := by
  unfold reconcileStep at h
  rcases hs : jsSplit k '/' with _ | ⟨s, _ | ⟨t, r⟩⟩ <;> rw [hs] at h <;> dsimp only at h
  · simp at h
  · simp at h
  · split at h
    · simp at h
    · split at h
      · split at h
        · injection h with h1
          exact h1.symm
        · simp at h
      · simp at h

theorem reconcile_foldl (fs : InstallFS) (l : List String) :
    ∀ (a : List String) (b : List ReconcileEvent),
      l.foldl
        (fun acc key =>
          match reconcileStep fs key with
          | .reconciled _ => (acc.1 ++ [key], acc.2 ++ [ReconcileEvent.reconciled key])
          | e => (acc.1, acc.2 ++ [e]))
        (a, b) =
      (a ++ l.filter (stepReconciled fs), b ++ l.map (reconcileStep fs)) := by
  induction l with
  | nil => intro a b; simp
  | cons k rest ih =>
    intro a b
    rw [List.foldl_cons]
    cases hstep : reconcileStep fs k with
    | reconciled k' =>
      have hk := reconcileStep_carries_key fs k k' hstep
      subst hk
      simp [hstep, ih, stepReconciled, List.filter_cons, List.append_assoc]
    | warnInvalid k' => simp [hstep, ih, stepReconciled, List.filter_cons, List.append_assoc]
    | warnFailed k' => simp [hstep, ih, stepReconciled, List.filter_cons, List.append_assoc]
    | warnNotFound k' => simp [hstep, ih, stepReconciled, List.filter_cons, List.append_assoc]

theorem stepReconciled_eq (fs : InstallFS) (k : String) :
    stepReconciled fs k =
      (keyWellFormed k && fs.fileEx (pathJoin (keyTemplateDir k) "SKILL.md") &&
        fs.installOk (keyTemplateDir k)) := by
  unfold stepReconciled reconcileStep keyWellFormed keyTemplateDir
  rcases hs : jsSplit k '/' with _ | ⟨s, _ | ⟨t, r⟩⟩ <;> simp only [hs]
  · simp
  · simp
  · by_cases hse : s = ""
    · simp [hse]
    · by_cases hte : t = ""
      · simp [hse, hte]
      · cases hf : fs.fileEx (pathJoin (templateSkillDirOf s t) "SKILL.md") <;>
          cases hi : fs.installOk (templateSkillDirOf s t) <;>
            simp [hse, hte, hf, hi]

theorem foldl_push_partition (p : String → Bool) (l : List String) :
    ∀ (a b : List String),
      l.foldl (fun acc x => if p x then (acc.1 ++ [x], acc.2) else (acc.1, acc.2 ++ [x])) (a, b) =
        (a ++ l.filter p, b ++ l.filter (fun x => !p x)) := by
  induction l with
  | nil => intro a b; simp
  | cons x xs ih =>
    intro a b
    cases h : p x <;> simp [List.foldl_cons, h, ih, List.filter_cons, List.append_assoc]

/-- C6: reconcileCustomSkills returns exactly those input keys, in input order,
that split into a non-empty stack and skill part, whose source template
SKILL.md still exists, and whose reinstall succeeded; every key is processed
(one event per key, in order, so no key aborts the remaining ones), a
malformed key's single event is the invalid-entry warning, and a well-formed
key whose source template is gone gets the single source-not-found warning. -/
theorem reconcileCustomSkills_spec (fs : InstallFS) (keys : List String) :
    (reconcileCustomSkills fs keys).1 =
      keys.filter (fun k =>
        keyWellFormed k && fs.fileEx (pathJoin (keyTemplateDir k) "SKILL.md") &&
          fs.installOk (keyTemplateDir k)) ∧
      (reconcileCustomSkills fs keys).2 = keys.map (reconcileStep fs) ∧
      (∀ k, keyWellFormed k = false → reconcileStep fs k = .warnInvalid k) ∧
      (∀ k, keyWellFormed k = true →
        fs.fileEx (pathJoin (keyTemplateDir k) "SKILL.md") = false →
        reconcileStep fs k = .warnNotFound k) := by
  refine ⟨?_, ?_, ?_, ?_⟩
  · unfold reconcileCustomSkills
    rw [reconcile_foldl]
    simp only [List.nil_append]
    exact List.filter_congr fun k _ => stepReconciled_eq fs k
  · unfold reconcileCustomSkills
    rw [reconcile_foldl]
    simp
  · intro k hk
    unfold keyWellFormed at hk
    unfold reconcileStep
    rcases hs : jsSplit k '/' with _ | ⟨s, _ | ⟨t, r⟩⟩ <;> simp only [hs] at hk ⊢
    simp only [Bool.and_eq_false_iff, bne_eq_false_iff_eq] at hk
    rcases hk with h | h <;> simp [h]
  · intro k hk hf
    unfold keyWellFormed at hk
    unfold keyTemplateDir at hf
    unfold reconcileStep
    rcases hs : jsSplit k '/' with _ | ⟨s, _ | ⟨t, r⟩⟩ <;> simp only [hs] at hk hf ⊢
    · exact absurd hk (by simp)
    · exact absurd hk (by simp)
    · simp only [Bool.and_eq_true, bne_iff_ne] at hk
      simp [hk.1, hk.2, hf]

/-- Witness for C6 at a concrete input: reconciling one live key, one
slash-less key and one key with a deleted source keeps exactly the live key,
warns invalid on the slash-less one and warns source-not-found on the stale
one. -/
theorem reconcileCustomSkills_spec_witness :
    (reconcileCustomSkills fsReconcile ["web/alpha", "noslash", "gone/skill"]).1 =
        ["web/alpha"] ∧
      reconcileStep fsReconcile "noslash" = .warnInvalid "noslash" ∧
      reconcileStep fsReconcile "gone/skill" = .warnNotFound "gone/skill" := by
  have h := reconcileCustomSkills_spec fsReconcile ["web/alpha", "noslash", "gone/skill"]
  refine ⟨?_, ?_, ?_⟩
  · rw [h.1]; decide
  · exact h.2.2.1 "noslash" (by decide)
  · exact h.2.2.2 "gone/skill" (by decide) (by decide)

/-- C7: installSkills installs the requested skills independently of one
another — the returned list is the requested skills that installed, in request
order, followed by the stack-derived keys, and each failed requested skill is
warned about without touching the others; concretely, of three requested
skills whose second has no SKILL.md, exactly the first and third are returned,
in order, and only the second is warned. -/
theorem installSkills_batch_fault_isolation :
    (∀ (fs : InstallFS) (skills : List String) (stack : Option String),
        installSkills fs skills stack =
          (skills.filter (fun s => fs.installOk (pathJoin packageSkillsDir s)) ++
              (installSkills fs [] stack).1,
            skills.filter (fun s => !fs.installOk (pathJoin packageSkillsDir s)))) ∧
      installSkills fsBetaBroken ["alpha", "beta", "gamma"] none =
        (["alpha", "gamma"], ["beta"]) := by
  constructor
  · intro fs skills stack
    simp only [installSkills]
    rw [foldl_push_partition]
    simp
  · decide

/-- C2 at its failing input: in a stack whose template directory lists alpha
then beta, where installing alpha throws and beta would install fine, the
whole stack loop is aborted by the silent catch — beta is not installed, the
returned list is empty and no warning is recorded, although the claim promises
a warning for alpha and a returned web/beta. -/
theorem installSkills_stack_abort :
    installSkills fsStackAlphaBroken [] (some "web") = ([], []) ∧
      fsStackAlphaBroken.installOk "skills/_templates/web/beta" = true ∧
      fsStackAlphaBroken.listDirs "skills/_templates/web" = some ["alpha", "beta"] := by
  refine ⟨?_, ?_, ?_⟩ <;> decide

theorem pairwise_filterMap_of_pairwise {α β : Type} (f : α → Option β) (R : α → α → Prop)
    (S : β → β → Prop)
    (H : ∀ a a', R a a' → ∀ b, f a = some b → ∀ b', f a' = some b' → S b b') :
    ∀ l : List α, l.Pairwise R → (l.filterMap f).Pairwise S := by
  intro l hl
  induction hl with
  | nil => simp
  | @cons a rest hhead _ ih =>
    cases hf : f a with
    | none => simpa [List.filterMap_cons, hf] using ih
    | some b =>
      simp only [List.filterMap_cons, hf, List.pairwise_cons]
      refine ⟨?_, ih⟩
      intro b' hb'
      obtain ⟨a', ha', hfa'⟩ := List.mem_filterMap.mp hb'
      exact H a a' (hhead a' ha') b hf b' hfa'

theorem McpKey.name_inj (k k' : McpKey) (h : k ≠ k') : k.name ≠ k'.name := by
  cases k <;> cases k' <;> first | exact absurd rfl h | decide

theorem selected_key_eq (options : McpOptions) (templates : McpKey → Option McpServerConfig)
    (a : McpKey) (b : McpKey × McpServerConfig)
    (h : (if options.get a then (templates a).map (fun t => (a, t)) else none) = some b) :
    b.1 = a := by
  split at h
  · rw [Option.map_eq_some'] at h
    obtain ⟨t, _, hb⟩ := h
    rw [← hb]
  · cases h

theorem selected_names_pairwise (options : McpOptions)
    (templates : McpKey → Option McpServerConfig) :
    (getSelectedServerTemplates options templates).Pairwise
      (fun x y => x.1.name ≠ y.1.name) := by
  unfold getSelectedServerTemplates
  refine pairwise_filterMap_of_pairwise _ (fun a a' : McpKey => a ≠ a') _ ?_ mcpKeyOrder (by decide)
  intro a a' hne b hb b' hb'
  have h1 := selected_key_eq options templates a b hb
  have h2 := selected_key_eq options templates a' b' hb'
  rw [h1, h2]
  exact McpKey.name_inj a a' hne

theorem selected_empty_of_missing (options : McpOptions)
    (templates : McpKey → Option McpServerConfig)
    (h : ∀ k : McpKey, options.get k = true → templates k = none) :
    getSelectedServerTemplates options templates = [] := by
  have h4 : ∀ k : McpKey,
      (if options.get k then (templates k).map (fun t => (k, t)) else none) = none := by
    intro k
    cases hk : options.get k
    · simp
    · simp [h k hk]
  simp [getSelectedServerTemplates, mcpKeyOrder, List.filterMap_cons, h4]

/-- C4: for every options value, if the agent profile does not support MCP or
has a falsy settingsFile, configureMcp returns the empty list with no
filesystem effect at all (not even ensureDir); and whenever no server template
ends up selected — every flag false or every flagged template file missing —
it returns the empty list and does not write or create the settings file. -/
theorem configureMcp_gates (env : McpEnv) (options : McpOptions) (agentId : String)
    (agent : AgentProfile) (ha : env.agents agentId = some agent) :
    ((agent.supportsMcp = false ∨ strFalsy agent.settingsFile = true) →
        configureMcp env options agentId = some ⟨[], false, none⟩) ∧
      ((∀ k : McpKey, options.get k = true → env.templates k = none) →
        (configureMcp env options agentId).map (fun o => (o.configured, o.written)) =
          some ([], none)) := by
  constructor
  · intro hgate
    rcases hgate with h | h <;> simp [configureMcp, ha, h]
  · intro htempl
    rw [configureMcp, ha]
    rw [selected_empty_of_missing options env.templates htempl]
    simp only [Option.map_some', List.isEmpty_nil, if_true]
    split <;> rfl

/-- Witness for C4 at concrete inputs: a no-MCP agent with all flags on yields
the empty list and no effects, and claude with every template file missing
yields the empty list and no written settings file. -/
theorem configureMcp_gates_witness :
    configureMcp envNoTemplates optsAll "helper" = some ⟨[], false, none⟩ ∧
      (configureMcp envNoTemplates optsAll "claude").map (fun o => (o.configured, o.written)) =
        some ([], none) := by
  have h1 := configureMcp_gates envNoTemplates optsAll "helper" noMcpProfile (by decide)
  have h2 := configureMcp_gates envNoTemplates optsAll "claude" claudeProfile (by decide)
  exact ⟨h1.1 (Or.inl (by decide)), h2.2 (fun k _ => rfl)⟩

/-- C5: toOpenCodeFormat turns a template into type local with the command
array primary-command-then-args and an environment field equal to env exactly
when env is given; the non-OpenCode path of configureMcp stores each selected
template unchanged under mcpServers at its key, and the OpenCode path stores
the conversion under mcp at its key. -/
theorem mcp_shape_conversion :
    (∀ t : McpServerConfig,
        toOpenCodeFormat t =
          { type := "local", command := t.command :: t.args.getD [], environment := t.env }) ∧
      (∀ (env : McpEnv) (options : McpOptions) (agentId : String) (out : McpOutcome)
          (doc : SettingsDoc) (k : McpKey) (t : McpServerConfig),
        agentId ≠ "opencode" →
        configureMcp env options agentId = some out →
        out.written = some doc →
        (k, t) ∈ getSelectedServerTemplates options env.templates →
        lookupKey (doc.mcpServers.getD []) k.name = some t) ∧
      (∀ (env : McpEnv) (options : McpOptions) (out : McpOutcome)
          (doc : SettingsDoc) (k : McpKey) (t : McpServerConfig),
        configureMcp env options "opencode" = some out →
        out.written = some doc →
        (k, t) ∈ getSelectedServerTemplates options env.templates →
        lookupKey (doc.mcp.getD []) k.name = some (toOpenCodeFormat t)) := by
  refine ⟨?_, ?_, ?_⟩
  · intro t
    cases he : t.env <;> simp [toOpenCodeFormat, he]
  · intro env options agentId out doc k t hne hout hw hmem
    have hoc : (agentId == "opencode") = false := by
      simp only [beq_eq_false_iff_ne, ne_eq]
      exact hne
    cases hag : env.agents agentId with
    | none => rw [configureMcp, hag] at hout; cases hout
    | some agent =>
      rw [configureMcp, hag] at hout
      simp only [Option.map_some', Option.some.injEq] at hout
      split at hout
      · rw [← hout] at hw; cases hw
      · rw [hoc] at hout
        split at hout
        · rw [← hout] at hw; cases hw
        · rw [← hout] at hw
          simp only [Bool.false_eq_true, if_false] at hw
          injection hw with hw
          rw [← hw]
          simp only [Option.getD_some]
          exact lookupKey_foldl_setKey_of_mem (fun kt => kt.1.name) (fun kt => kt.2)
            (getSelectedServerTemplates options env.templates) _ (k, t) hmem
            (selected_names_pairwise options env.templates)
  · intro env options out doc k t hout hw hmem
    cases hag : env.agents "opencode" with
    | none => rw [configureMcp, hag] at hout; cases hout
    | some agent =>
      rw [configureMcp, hag] at hout
      simp only [Option.map_some', Option.some.injEq] at hout
      split at hout
      · rw [← hout] at hw; cases hw
      · simp only [beq_self_eq_true, if_true] at hout
        split at hout
        · rw [← hout] at hw; cases hw
        · rw [← hout] at hw
          simp only [if_true] at hw
          injection hw with hw
          rw [← hw]
          simp only [Option.getD_some]
          exact lookupKey_foldl_setKey_of_mem (fun kt => kt.1.name)
            (fun kt => toOpenCodeFormat kt.2)
            (getSelectedServerTemplates options env.templates) _ (k, t) hmem
            (selected_names_pairwise options env.templates)

/-- Witness for C5 at concrete inputs: the github template converts to the
expected OpenCode shape, the claude path stores it unchanged under mcpServers,
and the opencode path stores the conversion under mcp. -/
theorem mcp_shape_conversion_witness :
    toOpenCodeFormat tGithub =
        { type := "local", command := tGithub.command :: tGithub.args.getD [],
          environment := tGithub.env } ∧
      lookupKey (docFreshAnthro.mcpServers.getD []) McpKey.github.name = some tGithub ∧
      lookupKey (docFreshOpen.mcp.getD []) McpKey.github.name =
        some (toOpenCodeFormat tGithub) := by
  refine ⟨mcp_shape_conversion.1 tGithub, ?_, ?_⟩
  · exact mcp_shape_conversion.2.1 envFresh optsGithub "claude"
      ⟨["github"], true, some docFreshAnthro⟩ docFreshAnthro .github tGithub
      (by decide) (by decide) (by decide) (by decide)
  · exact mcp_shape_conversion.2.2 envFresh optsGithub
      ⟨["github"], true, some docFreshOpen⟩ docFreshOpen .github tGithub
      (by decide) (by decide) (by decide)

/-- C8: when configureMcp writes the settings file, everything outside the MCP
sub-map survives: the foreign top-level entries of the loaded document are
written back unchanged, and any key not in the returned configured list — in
particular every pre-existing MCP entry not selected in this call — still maps
to exactly what the loaded document mapped it to, in both sub-maps. -/
theorem configureMcp_frame (env : McpEnv) (options : McpOptions) (agentId : String)
    (out : McpOutcome) (doc w : SettingsDoc)
    (hdoc : env.settingsDoc = some doc)
    (hout : configureMcp env options agentId = some out)
    (hw : out.written = some w) :
    w.rest = doc.rest ∧
      ∀ k : String, k ∉ out.configured →
        lookupKey (w.mcp.getD []) k = lookupKey (doc.mcp.getD []) k ∧
          lookupKey (w.mcpServers.getD []) k = lookupKey (doc.mcpServers.getD []) k := by
  cases hag : env.agents agentId with
  | none => rw [configureMcp, hag] at hout; cases hout
  | some agent =>
    rw [configureMcp, hag] at hout
    simp only [Option.map_some', Option.some.injEq] at hout
    split at hout
    · rw [← hout] at hw; cases hw
    · split at hout
      · rw [← hout] at hw; cases hw
      · by_cases hoc : (agentId == "opencode") = true
        · rw [hoc] at hout
          simp only [if_true, hdoc, Option.getD_some] at hout
          rw [← hout] at hw ⊢
          injection hw with hw
          rw [← hw]
          refine ⟨rfl, ?_⟩
          intro k hk
          simp only [Option.getD_some]
          refine ⟨?_, trivial⟩
          refine lookupKey_foldl_setKey_of_ne
            (fun kt : McpKey × McpServerConfig => kt.1.name)
            (fun kt : McpKey × McpServerConfig => toOpenCodeFormat kt.2) _ _ k ?_
          intro b hb he
          exact hk (he ▸ List.mem_map_of_mem (fun kt : McpKey × McpServerConfig => kt.1.name) hb)
        · simp only [Bool.not_eq_true] at hoc
          rw [hoc] at hout
          simp only [Bool.false_eq_true, if_false, hdoc, Option.getD_some] at hout
          rw [← hout] at hw ⊢
          injection hw with hw
          rw [← hw]
          refine ⟨rfl, ?_⟩
          intro k hk
          simp only [Option.getD_some]
          refine ⟨trivial, ?_⟩
          refine lookupKey_foldl_setKey_of_ne
            (fun kt : McpKey × McpServerConfig => kt.1.name)
            (fun kt : McpKey × McpServerConfig => kt.2) _ _ k ?_
          intro b hb he
          exact hk (he ▸ List.mem_map_of_mem (fun kt : McpKey × McpServerConfig => kt.1.name) hb)

/-- Witness for C8 at a concrete input: writing github into a settings file
that already holds a foreign top-level entry theme and an unselected server
entry old keeps both unchanged. -/
theorem configureMcp_frame_witness :
    docPrevWritten.rest = docPrev.rest ∧
      lookupKey (docPrevWritten.mcp.getD []) "old" = lookupKey (docPrev.mcp.getD []) "old" ∧
      lookupKey (docPrevWritten.mcpServers.getD []) "old" =
        lookupKey (docPrev.mcpServers.getD []) "old" := by
  have h := configureMcp_frame envPrev optsGithub "claude"
    ⟨["github"], true, some docPrevWritten⟩ docPrev docPrevWritten
    (by decide) (by decide) (by decide)
  exact ⟨h.1, (h.2 "old" (by decide)).1, (h.2 "old" (by decide)).2⟩

end AiFactory
